import Mathlib

/-
Verification of the sculpting example (src/example/sculpt.js) of the
three-mesh-bvh repository.

The JavaScript source computes with IEEE doubles; here numbers are idealized
as elements of a linear ordered field (instantiated with the real numbers in
the theorems), and Math.sqrt is passed in as an explicit function parameter
so that all definitions stay computable; the theorems instantiate it with
Real.sqrt.
-/

namespace SculptSpec

/-- A 3-component vector, mirroring THREE.Vector3. -/
structure V3 (K : Type) where
  x : K
  y : K
  z : K
deriving DecidableEq

variable {K : Type} [LinearOrderedField K]

instance : Add (V3 K) := ⟨fun a b => ⟨a.x + b.x, a.y + b.y, a.z + b.z⟩⟩

instance : Sub (V3 K) := ⟨fun a b => ⟨a.x - b.x, a.y - b.y, a.z - b.z⟩⟩

instance : SMul K (V3 K) := ⟨fun k v => ⟨k * v.x, k * v.y, k * v.z⟩⟩

instance : Zero (V3 K) := ⟨⟨0, 0, 0⟩⟩

/-- THREE.Vector3.cross (cross product). -/
def V3.cross (a b : V3 K) : V3 K :=
  ⟨a.y * b.z - a.z * b.y, a.z * b.x - a.x * b.z, a.x * b.y - a.y * b.x⟩

/-- THREE.Vector3.lengthSq. -/
def V3.lengthSq (v : V3 K) : K := v.x * v.x + v.y * v.y + v.z * v.z

/-- THREE.Vector3.distanceToSquared. -/
def V3.distSq (a b : V3 K) : K :=
  (a.x - b.x) * (a.x - b.x) + (a.y - b.y) * (a.y - b.y) + (a.z - b.z) * (a.z - b.z)

/-- THREE.Vector3.distanceTo: square root of the squared distance.  The
square-root function is a parameter (Real.sqrt in the theorems). -/
def V3.distanceTo (sqrtK : K → K) (a b : V3 K) : K := sqrtK (V3.distSq a b)

/-- The per-component clamp used by THREE.Vector3.clamp:
Math.max( min, Math.min( max, v ) ). -/
def clampScalar (lo hi v : K) : K := max lo (min hi v)

/-- THREE.Box3.clampPoint: clamp a point into the box componentwise. -/
def clampPoint (bmin bmax p : V3 K) : V3 K :=
  ⟨clampScalar bmin.x bmax.x p.x, clampScalar bmin.y bmax.y p.y,
    clampScalar bmin.z bmax.z p.z⟩

/-- THREE.Sphere.containsPoint: distanceToSquared(center) <= radius * radius. -/
def sphereContainsPoint (c : V3 K) (r : K) (p : V3 K) : Prop :=
  V3.distSq p c ≤ r * r

instance (c : V3 K) (r : K) (p : V3 K) : Decidable (sphereContainsPoint c r p) := by
  unfold sphereContainsPoint
  exact inferInstance

/-- THREE.Sphere.intersectsBox (via Box3.intersectsSphere): the point of the
box closest to the center (clampPoint) is within radius of the center. -/
def sphereIntersectsBox (c : V3 K) (r : K) (bmin bmax : V3 K) : Prop :=
  V3.distSq (clampPoint bmin bmax c) c ≤ r * r

instance (c : V3 K) (r : K) (bmin bmax : V3 K) :
    Decidable (sphereIntersectsBox c r bmin bmax) := by
  unfold sphereIntersectsBox
  exact inferInstance

/-- Membership of a point in an axis-aligned box (the geometric predicate of
the spec sentence; used to state what "the sphere intersects the box at all"
means). -/
def inBox (bmin bmax p : V3 K) : Prop :=
  (bmin.x ≤ p.x ∧ p.x ≤ bmax.x) ∧ (bmin.y ≤ p.y ∧ p.y ≤ bmax.y) ∧
    (bmin.z ≤ p.z ∧ p.z ≤ bmax.z)

/-- The eight corners of the box, in the order the three nested loops of
sculpt.js lines 269-290 visit them (x === 0 picks min.x, else max.x, etc.). -/
def boxCorners (bmin bmax : V3 K) : List (V3 K) :=
  [⟨bmin.x, bmin.y, bmin.z⟩, ⟨bmin.x, bmin.y, bmax.z⟩,
   ⟨bmin.x, bmax.y, bmin.z⟩, ⟨bmin.x, bmax.y, bmax.z⟩,
   ⟨bmax.x, bmin.y, bmin.z⟩, ⟨bmax.x, bmin.y, bmax.z⟩,
   ⟨bmax.x, bmax.y, bmin.z⟩, ⟨bmax.x, bmax.y, bmax.z⟩]

@[simp] theorem V3.add_def (a b : V3 K) :
    a + b = ⟨a.x + b.x, a.y + b.y, a.z + b.z⟩ := rfl

@[simp] theorem V3.sub_def (a b : V3 K) :
    a - b = ⟨a.x - b.x, a.y - b.y, a.z - b.z⟩ := rfl

@[simp] theorem V3.smul_def (k : K) (v : V3 K) :
    k • v = ⟨k * v.x, k * v.y, k * v.z⟩ := rfl

@[simp] theorem V3.zero_def : (0 : V3 K) = ⟨0, 0, 0⟩ := rfl

/-- The three classifications a shapecast bounds callback can return. -/
inductive ShapecastResult where
  | NOT_INTERSECTED
  | INTERSECTED
  | CONTAINED
deriving DecidableEq

/-- The bounds callback of sculpt.js lines 263-298: if the sphere intersects
the box, return INTERSECTED as soon as one corner is outside the sphere,
CONTAINED when all eight corners are inside; otherwise the trailing
`intersects ? INTERSECTED : NOT_INTERSECTED` returns NOT_INTERSECTED. -/
def intersectsBoundsCb (c : V3 K) (r : K) (bmin bmax : V3 K) : ShapecastResult :=
  if sphereIntersectsBox c r bmin bmax then
    if ∀ p ∈ boxCorners bmin bmax, sphereContainsPoint c r p then
      ShapecastResult.CONTAINED
    else
      ShapecastResult.INTERSECTED
  else
    ShapecastResult.NOT_INTERSECTED

theorem clampScalar_mem {lo hi : K} (h : lo ≤ hi) (v : K) :
    lo ≤ clampScalar lo hi v ∧ clampScalar lo hi v ≤ hi := by
  unfold clampScalar
  constructor
  · exact le_max_left _ _
  · exact max_le h (min_le_left _ _)

theorem clampScalar_closest (lo hi v c : K) (hlo : lo ≤ v) (hhi : v ≤ hi) :
    (clampScalar lo hi c - c) * (clampScalar lo hi c - c) ≤ (v - c) * (v - c) := by
  have hlh : lo ≤ hi := hlo.trans hhi
  unfold clampScalar
  rcases le_total c lo with h1 | h1
  · rw [min_eq_right (h1.trans hlh), max_eq_left h1]
    nlinarith
  · rcases le_total c hi with h2 | h2
    · rw [min_eq_right h2, max_eq_right h1]
      nlinarith
    · rw [min_eq_left h2, max_eq_right hlh]
      nlinarith

theorem sphereIntersectsBox_iff {c : V3 K} {r : K} {bmin bmax : V3 K}
    (hx : bmin.x ≤ bmax.x) (hy : bmin.y ≤ bmax.y) (hz : bmin.z ≤ bmax.z) :
    sphereIntersectsBox c r bmin bmax ↔
      ∃ p, inBox bmin bmax p ∧ sphereContainsPoint c r p := by
  constructor
  · intro h
    refine ⟨clampPoint bmin bmax c, ?_, h⟩
    exact ⟨⟨(clampScalar_mem hx c.x).1, (clampScalar_mem hx c.x).2⟩,
      ⟨(clampScalar_mem hy c.y).1, (clampScalar_mem hy c.y).2⟩,
      ⟨(clampScalar_mem hz c.z).1, (clampScalar_mem hz c.z).2⟩⟩
  · rintro ⟨p, hp, hps⟩
    unfold sphereIntersectsBox
    refine le_trans ?_ hps
    unfold V3.distSq clampPoint
    dsimp only
    exact add_le_add
      (add_le_add (clampScalar_closest _ _ _ _ hp.1.1 hp.1.2)
        (clampScalar_closest _ _ _ _ hp.2.1.1 hp.2.1.2))
      (clampScalar_closest _ _ _ _ hp.2.2.1 hp.2.2.2)

theorem corners_contained_intersects {c : V3 K} {r : K} {bmin bmax : V3 K}
    (hx : bmin.x ≤ bmax.x) (hy : bmin.y ≤ bmax.y) (hz : bmin.z ≤ bmax.z)
    (h : ∀ p ∈ boxCorners bmin bmax, sphereContainsPoint c r p) :
    sphereIntersectsBox c r bmin bmax := by
  refine (sphereIntersectsBox_iff hx hy hz).2
    ⟨⟨bmin.x, bmin.y, bmin.z⟩, ⟨⟨le_refl _, hx⟩, ⟨le_refl _, hy⟩, ⟨le_refl _, hz⟩⟩, ?_⟩
  exact h _ (by simp [boxCorners])

/-- C3: for every sphere and every (proper) axis-aligned box, the region test
of sculpt.js lines 263-298 returns exactly one of the three classifications,
and it returns CONTAINED iff the sphere contains all eight corners of the box,
NOT_INTERSECTED iff the sphere does not intersect the box at all (no point of
the box lies within the radius), and INTERSECTED otherwise. -/
theorem region_test_classification (c : V3 ℝ) (r : ℝ) (bmin bmax : V3 ℝ)
    (hx : bmin.x ≤ bmax.x) (hy : bmin.y ≤ bmax.y) (hz : bmin.z ≤ bmax.z) :
    (intersectsBoundsCb c r bmin bmax = ShapecastResult.CONTAINED ↔
      ∀ p ∈ boxCorners bmin bmax, sphereContainsPoint c r p) ∧
    (intersectsBoundsCb c r bmin bmax = ShapecastResult.NOT_INTERSECTED ↔
      ¬ ∃ p, inBox bmin bmax p ∧ sphereContainsPoint c r p) ∧
    (intersectsBoundsCb c r bmin bmax = ShapecastResult.INTERSECTED ↔
      ((∃ p, inBox bmin bmax p ∧ sphereContainsPoint c r p) ∧
        ¬ ∀ p ∈ boxCorners bmin bmax, sphereContainsPoint c r p)) := by
  by_cases hI : sphereIntersectsBox c r bmin bmax
  · by_cases hC : ∀ p ∈ boxCorners bmin bmax, sphereContainsPoint c r p
    · have hval : intersectsBoundsCb c r bmin bmax = ShapecastResult.CONTAINED := by
        unfold intersectsBoundsCb
        rw [if_pos hI, if_pos hC]
      refine ⟨⟨fun _ => hC, fun _ => hval⟩, ?_, ?_⟩
      · exact iff_of_false (by rw [hval]; simp)
          (not_not_intro ((sphereIntersectsBox_iff hx hy hz).1 hI))
      · exact iff_of_false (by rw [hval]; simp) (fun h => h.2 hC)
    · have hval : intersectsBoundsCb c r bmin bmax = ShapecastResult.INTERSECTED := by
        unfold intersectsBoundsCb
        rw [if_pos hI, if_neg hC]
      refine ⟨iff_of_false (by rw [hval]; simp) hC, ?_, ?_⟩
      · exact iff_of_false (by rw [hval]; simp)
          (not_not_intro ((sphereIntersectsBox_iff hx hy hz).1 hI))
      · exact iff_of_true hval ⟨(sphereIntersectsBox_iff hx hy hz).1 hI, hC⟩
  · have hval : intersectsBoundsCb c r bmin bmax = ShapecastResult.NOT_INTERSECTED := by
      unfold intersectsBoundsCb
      rw [if_neg hI]
    have hex : ¬ ∃ p, inBox bmin bmax p ∧ sphereContainsPoint c r p :=
      fun he => hI ((sphereIntersectsBox_iff hx hy hz).2 he)
    have hco : ¬ ∀ p ∈ boxCorners bmin bmax, sphereContainsPoint c r p :=
      fun hc => hI (corners_contained_intersects hx hy hz hc)
    refine ⟨iff_of_false (by rw [hval]; simp) hco, iff_of_true hval hex,
      iff_of_false (by rw [hval]; simp) (fun h => hex h.1)⟩

/-- Witness for C3: a concrete sphere (center the origin, radius 10) and the
unit box; the hypotheses hold and the test returns CONTAINED because all
eight corners are inside the sphere. -/
theorem region_test_classification_witness :
    ((⟨-1, -1, -1⟩ : V3 ℝ).x ≤ (⟨1, 1, 1⟩ : V3 ℝ).x ∧
      intersectsBoundsCb (⟨0, 0, 0⟩ : V3 ℝ) 10 ⟨-1, -1, -1⟩ ⟨1, 1, 1⟩ =
        ShapecastResult.CONTAINED) := by
  constructor
  · norm_num
  · refine (region_test_classification ⟨0, 0, 0⟩ 10 ⟨-1, -1, -1⟩ ⟨1, 1, 1⟩
      (by norm_num) (by norm_num) (by norm_num)).1.mpr ?_
    intro p hp
    simp only [boxCorners, List.mem_cons, List.not_mem_nil, or_false] at hp
    unfold sphereContainsPoint V3.distSq
    rcases hp with h | h | h | h | h | h | h | h <;> subst h <;> norm_num

/-- THREE.Triangle.getNormal: the cross product ( c - b ) x ( a - b ),
multiplied by 1 / sqrt of its squared length when that is positive, and the
zero vector otherwise. -/
def triangleGetNormal (sqrtK : K → K) (a b c : V3 K) : V3 K :=
  let n := V3.cross (c - b) (a - b)
  if 0 < V3.lengthSq n then (1 / sqrtK (V3.lengthSq n)) • n else 0

/-- The deduplication performed by `new Set( indices )` in sculpt.js line 316:
a JS Set keeps the first occurrence of each element, in insertion order. -/
def jsSetList : List ℕ → List ℕ
  | [] => []
  | a :: l => a :: jsSetList (l.filter (fun b => b ≠ a))
termination_by l => l.length
decreasing_by
  exact Nat.lt_succ_of_le (List.length_filter_le _ _)

theorem jsSetList_nodup (l : List ℕ) (h : l.Nodup) : jsSetList l = l := by
  induction l with
  | nil => rw [jsSetList]
  | cons a t ih =>
    rw [jsSetList]
    have hfa : t.filter (fun b => b ≠ a) = t := by
      rw [List.filter_eq_self]
      intro b hb
      simp only [ne_eq, decide_eq_true_eq]
      exact fun hba => (List.nodup_cons.1 h).1 (hba ▸ hb)
    rw [hfa, ih (List.nodup_cons.1 h).2]

/-- The geometry buffer of the example mesh: the triangle index attribute
(indexAttr.getX), the vertex position attribute and the vertex normal
attribute, each as an index-addressed map. -/
structure Geom (K : Type) where
  index : ℕ → ℕ
  pos : ℕ → V3 K
  normal : ℕ → V3 K

/-- Modelled from the spec: the Spatial Index collaborator (the repository's
shapecast traversal, whose source is not part of the example file) invokes the
primitive test once per accepted triangle, and the example pushes the three
arguments a, b, c it receives (sculpt.js line 303), which are the offsets
3t, 3t+1, 3t+2 of the accepted triangle t into the triangle index list.
Given the accepted triangle ids, this is the collected `indices` array of
sculpt.js lines 256-310. -/
def collectedIndices (accepted : List ℕ) : List ℕ :=
  (accepted.map (fun t => [3 * t, 3 * t + 1, 3 * t + 2])).flatten

/-- One iteration of the indexSet.forEach displacement loop of sculpt.js
lines 320-345, acting on the pair (position array, vertex-to-triangle map).
The loop reads the vertex position current at the time of the iteration and
records the global triangle id ~~( i / 3 ) (integer division). -/
def displaceVertex (sqrtK : K → K) (center dir : V3 K) (size intensity : K)
    (indexA : ℕ → ℕ) (st : (ℕ → V3 K) × (ℕ → List ℕ)) (i : ℕ) :
    (ℕ → V3 K) × (ℕ → List ℕ) :=
  let index := indexA i
  let p := st.1 index
  let dist := V3.distanceTo sqrtK p center
  if dist > size then st
  else
    let weight := 1 - dist / size
    let p2 := p + (weight * intensity) • dir
    (Function.update st.1 index p2,
      Function.update st.2 index (st.2 index ++ [i / 3]))

theorem displaceVertex_skip (sqrtK : K → K) (center dir : V3 K)
    (size intensity : K) (indexA : ℕ → ℕ) (st : (ℕ → V3 K) × (ℕ → List ℕ))
    (i : ℕ) (h : V3.distanceTo sqrtK (st.1 (indexA i)) center > size) :
    displaceVertex sqrtK center dir size intensity indexA st i = st := by
  unfold displaceVertex
  exact if_pos h

theorem displaceVertex_move (sqrtK : K → K) (center dir : V3 K)
    (size intensity : K) (indexA : ℕ → ℕ) (st : (ℕ → V3 K) × (ℕ → List ℕ))
    (i : ℕ) (h : ¬ V3.distanceTo sqrtK (st.1 (indexA i)) center > size) :
    displaceVertex sqrtK center dir size intensity indexA st i =
      (Function.update st.1 (indexA i)
        (st.1 (indexA i) +
          ((1 - V3.distanceTo sqrtK (st.1 (indexA i)) center / size) * intensity) • dir),
        Function.update st.2 (indexA i) (st.2 (indexA i) ++ [i / 3])) := by
  unfold displaceVertex
  exact if_neg h

/-- The displacement pass (sculpt.js lines 312-345): deduplicate the
collected offsets with a JS Set and fold the displacement loop over them,
starting from the current position array and an empty vertex-to-triangle
map. -/
def displacementPass (sqrtK : K → K) (center dir : V3 K) (size intensity : K)
    (indexA : ℕ → ℕ) (pos : ℕ → V3 K) (inds : List ℕ) :
    (ℕ → V3 K) × (ℕ → List ℕ) :=
  (jsSetList inds).foldl (displaceVertex sqrtK center dir size intensity indexA)
    (pos, fun _ => [])

/-- The face normal the inner loop of sculpt.js lines 356-366 fetches for
loop counter k: `for ( const tri in arr )` iterates the array positions
"0" .. "len - 1" of arr (not its elements), and `const i3 = tri * 3` coerces
the position string back to a number, so the triangle whose vertices are
fetched is the k-th triangle of the global triangle index list. -/
def fetchedTriNormal (sqrtK : K → K) (indexA : ℕ → ℕ) (pos : ℕ → V3 K) (k : ℕ) :
    V3 K :=
  triangleGetNormal sqrtK (pos (indexA (3 * k))) (pos (indexA (3 * k + 1)))
    (pos (indexA (3 * k + 2)))

/-- The normal written for one vertex whose recorded triangle list is arr
(sculpt.js lines 351-369): sum the face normals fetched for the loop
positions 0 .. arr.length - 1 and scale the sum by 1 / arr.length. -/
def vertexNormalWrite (sqrtK : K → K) (indexA : ℕ → ℕ) (pos : ℕ → V3 K)
    (arr : List ℕ) : V3 K :=
  (1 / (arr.length : K)) •
    (List.range arr.length).foldl
      (fun acc k => acc + fetchedTriNormal sqrtK indexA pos k) 0

/-- The normal refresh pass (sculpt.js lines 347-377) as a pointwise map:
the loop runs over the keys of the vertex-to-triangle map (the vertices for
which a triangle list was created) and writes each key exactly once, so it
denotes the pointwise update of the normal array at exactly those keys. -/
def normalRefresh (sqrtK : K → K) (indexA : ℕ → ℕ) (pos : ℕ → V3 K)
    (m : ℕ → List ℕ) (normal0 : ℕ → V3 K) : ℕ → V3 K :=
  fun v => if m v = [] then normal0 v else vertexNormalWrite sqrtK indexA pos (m v)

/-- One stroke evaluation (sculpt.js lines 312-377): the displacement pass
followed by the normal refresh pass, the latter guarded by
`if ( indices.length )`. -/
def strokeCore (sqrtK : K → K) (center dir : V3 K) (size intensity : K)
    (g : Geom K) (inds : List ℕ) : Geom K :=
  let st := displacementPass sqrtK center dir size intensity g.index g.pos inds
  { index := g.index
    pos := st.1
    normal := if inds = [] then g.normal
      else normalRefresh sqrtK g.index st.1 st.2 g.normal }

theorem foldl_displace_far (sqrtK : K → K) (center dir : V3 K)
    (size intensity : K) (indexA : ℕ → ℕ) (v : ℕ) (p0 : V3 K)
    (h : V3.distanceTo sqrtK p0 center > size) (l : List ℕ) :
    ∀ st : (ℕ → V3 K) × (ℕ → List ℕ), st.1 v = p0 → st.2 v = [] →
      (l.foldl (displaceVertex sqrtK center dir size intensity indexA) st).1 v = p0 ∧
      (l.foldl (displaceVertex sqrtK center dir size intensity indexA) st).2 v = [] := by
  induction l with
  | nil =>
    intro st h1 h2
    exact ⟨h1, h2⟩
  | cons i t ih =>
    intro st h1 h2
    rw [List.foldl_cons]
    by_cases hiv : indexA i = v
    · have hskip : displaceVertex sqrtK center dir size intensity indexA st i = st := by
        apply displaceVertex_skip
        rw [hiv, h1]
        exact h
      rw [hskip]
      exact ih st h1 h2
    · have hstep :
          (displaceVertex sqrtK center dir size intensity indexA st i).1 v = st.1 v ∧
          (displaceVertex sqrtK center dir size intensity indexA st i).2 v = st.2 v := by
        unfold displaceVertex
        dsimp only
        split
        · exact ⟨rfl, rfl⟩
        · exact ⟨Function.update_noteq (fun hv => hiv hv.symm) _ _,
            Function.update_noteq (fun hv => hiv hv.symm) _ _⟩
      exact ih _ (hstep.1.trans h1) (hstep.2.trans h2)

/-- A vertex whose pre-stroke distance to the brush center is strictly
greater than the radius keeps its pre-stroke position through the whole
displacement pass and is never recorded in the vertex-to-triangle map. -/
theorem displacementPass_far (sqrtK : K → K) (center dir : V3 K)
    (size intensity : K) (indexA : ℕ → ℕ) (pos : ℕ → V3 K) (inds : List ℕ)
    (v : ℕ) (h : V3.distanceTo sqrtK (pos v) center > size) :
    (displacementPass sqrtK center dir size intensity indexA pos inds).1 v = pos v ∧
    (displacementPass sqrtK center dir size intensity indexA pos inds).2 v = [] :=
  foldl_displace_far sqrtK center dir size intensity indexA v (pos v) h
    (jsSetList inds) (pos, fun _ => []) rfl rfl

theorem foldl_displace_izero (sqrtK : K → K) (center dir : V3 K) (size : K)
    (indexA : ℕ → ℕ) (l : List ℕ) :
    ∀ st : (ℕ → V3 K) × (ℕ → List ℕ),
      (l.foldl (displaceVertex sqrtK center dir size 0 indexA) st).1 = st.1 := by
  induction l with
  | nil =>
    intro st
    rfl
  | cons i t ih =>
    intro st
    rw [List.foldl_cons, ih]
    unfold displaceVertex
    dsimp only
    split
    · rfl
    · have hp2 : st.1 (indexA i) +
          ((1 - V3.distanceTo sqrtK (st.1 (indexA i)) center / size) * 0) • dir =
          st.1 (indexA i) := by
        cases hst : st.1 (indexA i)
        simp
      rw [hp2, Function.update_eq_self]

instance : Neg (V3 K) := ⟨fun v => ⟨-v.x, -v.y, -v.z⟩⟩

@[simp] theorem V3.neg_def (v : V3 K) : -v = ⟨-v.x, -v.y, -v.z⟩ := rfl

/-- The upper-left 3x3 block of a THREE.Matrix4. -/
structure Mat3 (K : Type) where
  m11 : K
  m12 : K
  m13 : K
  m21 : K
  m22 : K
  m23 : K
  m31 : K
  m32 : K
  m33 : K
deriving DecidableEq

def Mat3.mulVec (M : Mat3 K) (v : V3 K) : V3 K :=
  ⟨M.m11 * v.x + M.m12 * v.y + M.m13 * v.z,
    M.m21 * v.x + M.m22 * v.y + M.m23 * v.z,
    M.m31 * v.x + M.m32 * v.y + M.m33 * v.z⟩

def Mat3.det (M : Mat3 K) : K :=
  M.m11 * (M.m22 * M.m33 - M.m23 * M.m32)
    - M.m12 * (M.m21 * M.m33 - M.m23 * M.m31)
    + M.m13 * (M.m21 * M.m32 - M.m22 * M.m31)

/-- The adjugate of the 3x3 block (the classical-adjoint formula THREE uses
inside Matrix4.invert). -/
def Mat3.adj (M : Mat3 K) : Mat3 K :=
  ⟨M.m22 * M.m33 - M.m23 * M.m32, M.m13 * M.m32 - M.m12 * M.m33,
      M.m12 * M.m23 - M.m13 * M.m22,
    M.m23 * M.m31 - M.m21 * M.m33, M.m11 * M.m33 - M.m13 * M.m31,
      M.m13 * M.m21 - M.m11 * M.m23,
    M.m21 * M.m32 - M.m22 * M.m31, M.m12 * M.m31 - M.m11 * M.m32,
      M.m11 * M.m22 - M.m12 * M.m21⟩

def Mat3.smulM (k : K) (M : Mat3 K) : Mat3 K :=
  ⟨k * M.m11, k * M.m12, k * M.m13, k * M.m21, k * M.m22, k * M.m23,
    k * M.m31, k * M.m32, k * M.m33⟩

/-- An affine transform, the shape of a mesh's matrixWorld: a linear 3x3
block and a translation column. -/
structure Aff (K : Type) where
  linear : Mat3 K
  translation : V3 K

/-- THREE.Vector3.applyMatrix4 for an affine matrix (the homogeneous w
component is 1, so no perspective divide occurs). -/
def Aff.applyToPoint (A : Aff K) (p : V3 K) : V3 K :=
  A.linear.mulVec p + A.translation

/-- THREE.Matrix4.invert specialised to affine matrices: the all-zero
transform when the determinant is zero (as in three.js), otherwise the
affine inverse. -/
def Aff.inverted (A : Aff K) : Aff K :=
  if A.linear.det = 0 then ⟨⟨0, 0, 0, 0, 0, 0, 0, 0, 0⟩, 0⟩
  else
    let Minv := Mat3.smulM (1 / A.linear.det) A.linear.adj
    ⟨Minv, -(Minv.mulVec A.translation)⟩

/-- THREE.Vector3.normalize: divideScalar( length() || 1 ), i.e. multiply by
the reciprocal of the length, or of 1 when the length is zero. -/
def v3normalize (sqrtK : K → K) (v : V3 K) : V3 K :=
  let l := sqrtK v.lengthSq
  (1 / if l = 0 then 1 else l) • v

/-- THREE.Vector3.transformDirection: apply the upper 3x3 block of the
matrix, then normalize. -/
def transformDirection (sqrtK : K → K) (M : Mat3 K) (v : V3 K) : V3 K :=
  v3normalize sqrtK (M.mulVec v)

/-- Follows the spec's words, for the refinement comparison of claim C6:
"the world-space surface normal at the brush's current placement,
transformed into mesh-local space" - a world-space direction is carried into
mesh-local space by the inverse of the mesh's world matrix. -/
def specWorldToLocalDir (sqrtK : K → K) (A : Aff K) (n : V3 K) : V3 K :=
  transformDirection sqrtK (A.inverted).linear n

/-- The reference direction computed once per stroke at sculpt.js line 319:
tempVec3.copy( hit.face.normal ).transformDirection( targetMesh.matrixWorld ). -/
def usedRefDir (sqrtK : K → K) (A : Aff K) (n : V3 K) : V3 K :=
  transformDirection sqrtK A.linear n

/-- The per-frame inputs of the render function that the geometry-mutating
path reads: the camera-gesture flag (controls.active), the pointer position,
the current and previous mouse-button states, the two live parameters and
the mesh's world transform. -/
structure FrameInput (K : Type) where
  controlsActive : Bool
  mouse : K × K
  mouseState : Bool
  lastMouseState : Bool
  size : K
  intensity : K
  matrixWorld : Aff K

/-- One execution of the geometry-mutating part of the render function
(sculpt.js lines 222-397).  The picking collaborator (the raycaster, which
maps a pointer position to at most one hit point and face normal) and the
spatial index collaborator (bvh.shapecast, which maps a mesh-local sphere to
the list of collected offsets) are taken as function-valued inputs; both are
deterministic functions of the scene state.  While a camera gesture is
active, or when the ray misses, or when neither the current nor the previous
frame had the button pressed, the geometry is returned unchanged. -/
def renderFrame (sqrtK : K → K) (pick : K × K → Option (V3 K × V3 K))
    (shapecast : V3 K → K → List ℕ) (f : FrameInput K) (g : Geom K) : Geom K :=
  if f.controlsActive then g
  else
    match pick f.mouse with
    | none => g
    | some (pt, n) =>
      if f.mouseState || f.lastMouseState then
        let center := (f.matrixWorld.inverted).applyToPoint pt
        let inds := shapecast center f.size
        let dir := usedRefDir sqrtK f.matrixWorld n
        strokeCore sqrtK center dir f.size f.intensity g inds
      else g

/-- A sequence of frames, folding renderFrame over the geometry. -/
def runFrames (sqrtK : K → K) (pick : K × K → Option (V3 K × V3 K))
    (shapecast : V3 K → K → List ℕ) (g : Geom K) (fs : List (FrameInput K)) :
    Geom K :=
  fs.foldl (fun gg f => renderFrame sqrtK pick shapecast f gg) g

/-- The wheel handler of sculpt.js lines 197-218: params.size += delta *
0.0005, then params.size = Math.max( Math.min( params.size, 0.25 ), 0.05 ). -/
def wheelSizeUpdate (size delta : K) : K :=
  max (min (size + delta * 0.0005) 0.25) 0.05

/-- Modelled from the spec: the parameter surface (the dat.gui number
controllers configured with .min(0.05).max(0.25) and .min(0.001).max(0.01)
at sculpt.js lines 124-125) clamps an incoming value into the configured
[min, max] interval before storing it in params; dat.gui itself is an
external collaborator, only its configuration is part of the source. -/
def guiClamp (lo hi v : K) : K := max lo (min hi v)

/-- Ingestion of the size parameter through its gui controller. -/
def setSizeParam (v : K) : K := guiClamp 0.05 0.25 v

/-- Ingestion of the intensity parameter through its gui controller. -/
def setIntensityParam (v : K) : K := guiClamp 0.001 0.01 v

theorem sqrt_val {a b : ℝ} (hb : 0 ≤ b) (h : b * b = a) : Real.sqrt a = b :=
  h ▸ Real.sqrt_mul_self hb

/-- C8: while the Stroke Driver is Idle - a camera-orbit gesture is active,
or the picking ray misses the mesh - a frame never mutates the vertex
position or normal arrays, regardless of pointer state; consequently over
any run of such frames (in particular after the camera-gesture flag becomes
true mid-stroke) the geometry stays unchanged until the gesture ends and a
hit is re-acquired. -/
theorem idle_frames_no_mutation (pick : ℝ × ℝ → Option (V3 ℝ × V3 ℝ))
    (shapecast : V3 ℝ → ℝ → List ℕ) (g : Geom ℝ) (fs : List (FrameInput ℝ))
    (h : ∀ f ∈ fs, f.controlsActive = true ∨ pick f.mouse = none) :
    runFrames Real.sqrt pick shapecast g fs = g := by
  induction fs generalizing g with
  | nil => rfl
  | cons f t ih =>
    have hone : renderFrame Real.sqrt pick shapecast f g = g := by
      unfold renderFrame
      by_cases hca : f.controlsActive = true
      · rw [if_pos hca]
      · rw [if_neg hca]
        rcases h f (List.mem_cons_self f t) with hc | hp
        · exact absurd hc hca
        · rw [hp]
    show runFrames Real.sqrt pick shapecast g (f :: t) = g
    unfold runFrames
    rw [List.foldl_cons, hone]
    exact ih g (fun f2 hf2 => h f2 (List.mem_cons_of_mem f hf2))

/-- Witness for C8: a run of two concrete idle frames (one with the
camera-gesture flag set while the pointer is pressed, one where the pick
misses) leaves a concrete geometry unchanged. -/
theorem idle_frames_no_mutation_witness :
    runFrames Real.sqrt (fun _ => none) (fun _ _ => [])
      { index := fun i => i, pos := fun _ => ⟨1, 2, 3⟩, normal := fun _ => ⟨0, 0, 1⟩ }
      [{ controlsActive := true, mouse := (0, 0), mouseState := true,
          lastMouseState := true, size := 1, intensity := 1,
          matrixWorld := ⟨⟨1, 0, 0, 0, 1, 0, 0, 0, 1⟩, 0⟩ },
        { controlsActive := false, mouse := (0, 0), mouseState := true,
          lastMouseState := true, size := 1, intensity := 1,
          matrixWorld := ⟨⟨1, 0, 0, 0, 1, 0, 0, 0, 1⟩, 0⟩ }] =
      { index := fun i => i, pos := fun _ => ⟨1, 2, 3⟩, normal := fun _ => ⟨0, 0, 1⟩ } := by
  apply idle_frames_no_mutation
  intro f hf
  simp only [List.mem_cons, List.not_mem_nil, or_false] at hf
  rcases hf with hf | hf <;> subst hf
  · exact Or.inl rfl
  · exact Or.inr rfl

/-- C10: the per-frame update is deterministic - two executions of the
render step with the same picking and spatial-index collaborators, equal
camera-gesture flags, mouse positions, current and previous button states,
parameter values and equal geometry buffers produce equal vertex position
arrays and equal vertex normal arrays. -/
theorem render_deterministic (pick : ℝ × ℝ → Option (V3 ℝ × V3 ℝ))
    (shapecast : V3 ℝ → ℝ → List ℕ) (f1 f2 : FrameInput ℝ) (g1 g2 : Geom ℝ)
    (hca : f1.controlsActive = f2.controlsActive) (hm : f1.mouse = f2.mouse)
    (hms : f1.mouseState = f2.mouseState)
    (hls : f1.lastMouseState = f2.lastMouseState) (hsz : f1.size = f2.size)
    (hin : f1.intensity = f2.intensity)
    (hmw : f1.matrixWorld = f2.matrixWorld) (hg : g1 = g2) :
    (renderFrame Real.sqrt pick shapecast f1 g1).pos =
      (renderFrame Real.sqrt pick shapecast f2 g2).pos ∧
    (renderFrame Real.sqrt pick shapecast f1 g1).normal =
      (renderFrame Real.sqrt pick shapecast f2 g2).normal := by
  cases f1
  cases f2
  dsimp only at hca hm hms hls hsz hin hmw
  subst hca
  subst hm
  subst hms
  subst hls
  subst hsz
  subst hin
  subst hmw
  subst hg
  exact ⟨rfl, rfl⟩

/-- Witness for C10: the determinism theorem applied to two equal concrete
states. -/
theorem render_deterministic_witness :
    (renderFrame Real.sqrt (fun _ => none) (fun _ _ => [])
        { controlsActive := false, mouse := (0, 0), mouseState := true,
          lastMouseState := false, size := 1, intensity := 1,
          matrixWorld := ⟨⟨1, 0, 0, 0, 1, 0, 0, 0, 1⟩, 0⟩ }
        { index := fun i => i, pos := fun _ => ⟨1, 2, 3⟩,
          normal := fun _ => ⟨0, 0, 1⟩ }).pos =
      (renderFrame Real.sqrt (fun _ => none) (fun _ _ => [])
        { controlsActive := false, mouse := (0, 0), mouseState := true,
          lastMouseState := false, size := 1, intensity := 1,
          matrixWorld := ⟨⟨1, 0, 0, 0, 1, 0, 0, 0, 1⟩, 0⟩ }
        { index := fun i => i, pos := fun _ => ⟨1, 2, 3⟩,
          normal := fun _ => ⟨0, 0, 1⟩ }).pos :=
  (render_deterministic (fun _ => none) (fun _ _ => []) _ _ _ _
    rfl rfl rfl rfl rfl rfl rfl rfl).1

/-- C9: the wheel handler clamps the size into [0.05, 0.25], and the gui
controllers clamp an out-of-range size (resp. intensity) to the smallest
valid value 0.05 (resp. 0.001); every ingestion path therefore yields a
strictly positive radius and a non-negative intensity, so no region query or
displacement pass runs with a non-positive radius. -/
theorem params_clamped (s δ v w : ℝ) (hv : v ≤ 0.05) (hw : w ≤ 0.001) :
    setSizeParam v = 0.05 ∧ setIntensityParam w = 0.001 ∧
    0 < setSizeParam v ∧ 0 ≤ setIntensityParam w ∧ 0 < wheelSizeUpdate s δ ∧
    0 < setSizeParam s := by
  have hsv : setSizeParam v = 0.05 := by
    unfold setSizeParam guiClamp
    rw [min_eq_right (hv.trans (by norm_num)), max_eq_left hv]
  have hiw : setIntensityParam w = 0.001 := by
    unfold setIntensityParam guiClamp
    rw [min_eq_right (hw.trans (by norm_num)), max_eq_left hw]
  refine ⟨hsv, hiw, ?_, ?_, ?_, ?_⟩
  · rw [hsv]
    norm_num
  · rw [hiw]
    norm_num
  · unfold wheelSizeUpdate
    calc (0 : ℝ) < 0.05 := by norm_num
      _ ≤ _ := le_max_right _ _
  · unfold setSizeParam guiClamp
    calc (0 : ℝ) < 0.05 := by norm_num
      _ ≤ _ := le_max_left _ _

/-- Witness for C9: a negative size and a negative intensity arriving from
the parameter surface are clamped to 0.05 and 0.001. -/
theorem params_clamped_witness :
    setSizeParam (-1 : ℝ) = 0.05 ∧ setIntensityParam (-1 : ℝ) = 0.001 ∧
    0 < setSizeParam (-1 : ℝ) ∧ 0 ≤ setIntensityParam (-1 : ℝ) ∧
    0 < wheelSizeUpdate (0 : ℝ) (-1000) ∧ 0 < setSizeParam (0 : ℝ) :=
  params_clamped 0 (-1000) (-1) (-1) (by norm_num) (by norm_num)

/-- C5 (amended): the normal refresh pass runs only when the region query
collected at least one triangle, and it rewrites the normal only of vertices
recorded by the displacement pass's distance test; a vertex whose pre-stroke
distance to the brush center strictly exceeds the radius - even one touched
by the region query - keeps its previous normal (and its position). -/
theorem normal_refresh_scope (center dir : V3 ℝ) (size intensity : ℝ)
    (g : Geom ℝ) (inds : List ℕ) (v : ℕ)
    (h : inds = [] ∨ V3.distanceTo Real.sqrt (g.pos v) center > size) :
    (strokeCore Real.sqrt center dir size intensity g inds).normal v = g.normal v ∧
    (strokeCore Real.sqrt center dir size intensity g inds).pos v = g.pos v := by
  rcases h with h | h
  · subst h
    have hset : jsSetList [] = [] := by rw [jsSetList]
    unfold strokeCore displacementPass
    rw [hset]
    exact ⟨rfl, rfl⟩
  · have hfar := displacementPass_far Real.sqrt center dir size intensity
      g.index g.pos inds v h
    simp only [strokeCore]
    refine ⟨?_, hfar.1⟩
    by_cases hi : inds = []
    · rw [if_pos hi]
    · rw [if_neg hi]
      unfold normalRefresh
      rw [hfar.2, if_pos rfl]

/-- Witness for the amended C5: with an empty region-query result a concrete
stroke leaves a concrete normal and position unchanged. -/
theorem normal_refresh_scope_witness :
    (strokeCore Real.sqrt ⟨0, 0, 0⟩ ⟨0, 0, 1⟩ 1 1
        { index := fun i => i, pos := fun _ => ⟨1, 2, 3⟩,
          normal := fun _ => ⟨4, 5, 6⟩ } []).normal 0 = ⟨4, 5, 6⟩ ∧
    (strokeCore Real.sqrt ⟨0, 0, 0⟩ ⟨0, 0, 1⟩ 1 1
        { index := fun i => i, pos := fun _ => ⟨1, 2, 3⟩,
          normal := fun _ => ⟨4, 5, 6⟩ } []).pos 0 = ⟨1, 2, 3⟩ :=
  normal_refresh_scope ⟨0, 0, 0⟩ ⟨0, 0, 1⟩ 1 1 _ [] 0 (Or.inl rfl)

/-- C6 counterexample geometry: the mesh's world matrix is a 90-degree
rotation about the z axis (stated generically so the definition stays
computable; the theorems use it over the reals). -/
def rotZ90 : Aff K := ⟨⟨0, -1, 0, 1, 0, 0, 0, 0, 1⟩, 0⟩

/-- C6 counterexample: with the mesh's world matrix a 90-degree rotation
about z and hit normal (1,0,0), the direction the code uses (sculpt.js line
319, transformDirection with matrixWorld) is (0,1,0), while that normal
transformed INTO mesh-local space (by the inverse of the world matrix) is
(0,-1,0); the two differ, so the used reference direction is not the
world-space normal transformed into mesh-local space. -/
theorem c6_direction_counterexample :
    usedRefDir Real.sqrt rotZ90 ⟨1, 0, 0⟩ ≠
      specWorldToLocalDir Real.sqrt rotZ90 ⟨1, 0, 0⟩ := by
  have h1 : usedRefDir Real.sqrt rotZ90 ⟨1, 0, 0⟩ = ⟨0, 1, 0⟩ := by
    unfold usedRefDir transformDirection v3normalize rotZ90 Mat3.mulVec V3.lengthSq
    norm_num
  have h2 : specWorldToLocalDir Real.sqrt rotZ90 ⟨1, 0, 0⟩ = ⟨0, -1, 0⟩ := by
    unfold specWorldToLocalDir Aff.inverted transformDirection v3normalize
      rotZ90 Mat3.det Mat3.adj Mat3.smulM Mat3.mulVec V3.lengthSq
    norm_num
  rw [h1, h2]
  intro hcontra
  have := congrArg V3.y hcontra
  norm_num at this

/-- C6 (amended): the reference direction used by the displacement pass is
the hit face normal transformed by the mesh's world matrix through
THREE.Vector3.transformDirection (the local-to-world direction transform,
not the world-to-local one), and it is computed once per stroke: the whole
sculpting frame equals the stroke core applied to that single direction
value, which every per-vertex displacement then shares. -/
theorem reference_direction_once (pick : ℝ × ℝ → Option (V3 ℝ × V3 ℝ))
    (shapecast : V3 ℝ → ℝ → List ℕ) (f : FrameInput ℝ) (g : Geom ℝ)
    (pt n : V3 ℝ) (hca : f.controlsActive = false)
    (hp : pick f.mouse = some (pt, n))
    (hm : (f.mouseState || f.lastMouseState) = true) :
    renderFrame Real.sqrt pick shapecast f g =
      strokeCore Real.sqrt ((f.matrixWorld.inverted).applyToPoint pt)
        (usedRefDir Real.sqrt f.matrixWorld n) f.size f.intensity g
        (shapecast ((f.matrixWorld.inverted).applyToPoint pt) f.size) := by
  unfold renderFrame
  rw [hca, hp]
  simp only [Bool.false_eq_true, if_false, hm, if_true]

/-- Witness for the amended C6: a concrete sculpting frame (gesture flag
off, pick hitting, button pressed) evaluates to the stroke core applied to
the once-computed direction. -/
theorem reference_direction_once_witness :
    renderFrame Real.sqrt (fun _ => some (⟨0, 0, 0⟩, ⟨1, 0, 0⟩)) (fun _ _ => [])
        { controlsActive := false, mouse := (0, 0), mouseState := true,
          lastMouseState := false, size := 1, intensity := 1,
          matrixWorld := rotZ90 }
        { index := fun i => i, pos := fun _ => ⟨1, 2, 3⟩,
          normal := fun _ => ⟨0, 0, 1⟩ } =
      strokeCore Real.sqrt ((rotZ90.inverted).applyToPoint ⟨0, 0, 0⟩)
        (usedRefDir Real.sqrt rotZ90 ⟨1, 0, 0⟩) 1 1
        { index := fun i => i, pos := fun _ => ⟨1, 2, 3⟩,
          normal := fun _ => ⟨0, 0, 1⟩ } [] :=
  reference_direction_once (fun _ => some (⟨0, 0, 0⟩, ⟨1, 0, 0⟩))
    (fun _ _ => []) _ _ ⟨0, 0, 0⟩ ⟨1, 0, 0⟩ rfl rfl rfl

/-- C7: a full stroke with intensity 0 leaves every vertex position
unchanged, and the normal of every touched vertex (every key of the
vertex-to-triangle map) is freshly recomputed - it equals the value the
normal pass computes from the unchanged positions, rather than being
skipped. -/
theorem zero_intensity_stroke (center dir : V3 ℝ) (size : ℝ) (g : Geom ℝ)
    (inds : List ℕ) (v : ℕ)
    (hv : (displacementPass Real.sqrt center dir size 0 g.index g.pos inds).2 v ≠ []) :
    (strokeCore Real.sqrt center dir size 0 g inds).pos = g.pos ∧
    (strokeCore Real.sqrt center dir size 0 g inds).normal v =
      vertexNormalWrite Real.sqrt g.index g.pos
        ((displacementPass Real.sqrt center dir size 0 g.index g.pos inds).2 v) := by
  have hpos : (displacementPass Real.sqrt center dir size 0 g.index g.pos inds).1 =
      g.pos :=
    foldl_displace_izero Real.sqrt center dir size g.index (jsSetList inds) _
  have hne : inds ≠ [] := by
    intro hemp
    apply hv
    subst hemp
    have hset : jsSetList ([] : List ℕ) = [] := by rw [jsSetList]
    unfold displacementPass
    rw [hset, List.foldl_nil]
  constructor
  · exact hpos
  · simp only [strokeCore]
    rw [if_neg hne]
    unfold normalRefresh
    rw [if_neg hv, hpos]

/-- Concrete geometry for the C5 counterexample: one triangle (identity
index attribute) with vertex 0 inside the brush radius 2 and vertices 1 and
2 outside it; all stored normals are the sentinel (5,5,5). -/
def gScope : Geom K :=
  { index := fun i => i
    pos := fun v =>
      if v = 0 then ⟨1, 0, 0⟩ else if v = 1 then ⟨5, 0, 0⟩ else ⟨0, 5, 0⟩
    normal := fun _ => ⟨5, 5, 5⟩ }

/-- C5 counterexample: with triangle 0 accepted by the region query (offsets
[0,1,2]) and brush radius 2 centered at the origin, vertex 2 is touched by
the region query but fails the distance test; after the stroke its normal is
still the sentinel (5,5,5) - the pass did not recompute it - although the
recomputation (here the normalized face normal of its sole in-region
incident triangle, from current positions) yields (0,0,1). -/
theorem c5_touched_vertex_not_recomputed :
    (strokeCore Real.sqrt ⟨0, 0, 0⟩ ⟨0, 0, 1⟩ 2 0 gScope
        (collectedIndices [0])).normal 2 = ⟨5, 5, 5⟩ ∧
    triangleGetNormal Real.sqrt ((gScope : Geom ℝ).pos 0) ((gScope : Geom ℝ).pos 1)
        ((gScope : Geom ℝ).pos 2) ≠ ⟨5, 5, 5⟩ := by
  have h25 : Real.sqrt 25 = 5 := sqrt_val (by norm_num) (by norm_num)
  constructor
  · have hfar : V3.distanceTo Real.sqrt ((gScope : Geom ℝ).pos 2) ⟨0, 0, 0⟩ > 2 := by
      unfold gScope V3.distanceTo V3.distSq
      norm_num [h25]
    have hd := displacementPass_far Real.sqrt ⟨0, 0, 0⟩ ⟨0, 0, 1⟩ 2 0
      (gScope : Geom ℝ).index (gScope : Geom ℝ).pos (collectedIndices [0]) 2 hfar
    simp only [strokeCore]
    rw [if_neg (show collectedIndices [0] ≠ [] by decide)]
    unfold normalRefresh
    rw [hd.2, if_pos rfl]
    rfl
  · have hval : triangleGetNormal Real.sqrt ((gScope : Geom ℝ).pos 0)
        ((gScope : Geom ℝ).pos 1) ((gScope : Geom ℝ).pos 2) = ⟨0, 0, 1⟩ := by
      have h400 : Real.sqrt 400 = 20 := sqrt_val (by norm_num) (by norm_num)
      unfold gScope triangleGetNormal V3.cross V3.lengthSq
      norm_num [h400]
    rw [hval]
    intro hcon
    have hz := congrArg V3.z hcon
    norm_num at hz

/-- Concrete geometry for the C7 witness: a single triangle near the origin
(identity index attribute). -/
def gOne : Geom K :=
  { index := fun i => i
    pos := fun v =>
      if v = 0 then ⟨1, 0, 0⟩ else if v = 1 then ⟨0, 1, 0⟩ else ⟨0, 0, 1⟩
    normal := fun _ => ⟨9, 9, 9⟩ }

/-- Witness for C7: on a concrete stroke of intensity 0 over one in-range
triangle, vertex 0 is recorded by the distance test, the positions are
unchanged and its normal is the recomputation from the unchanged
positions. -/
theorem zero_intensity_stroke_witness :
    (strokeCore Real.sqrt ⟨0, 0, 0⟩ ⟨0, 0, 1⟩ 10 0 gOne [0, 1, 2]).pos =
      (gOne : Geom ℝ).pos ∧
    (strokeCore Real.sqrt ⟨0, 0, 0⟩ ⟨0, 0, 1⟩ 10 0 gOne [0, 1, 2]).normal 0 =
      vertexNormalWrite Real.sqrt (gOne : Geom ℝ).index (gOne : Geom ℝ).pos
        ((displacementPass Real.sqrt ⟨0, 0, 0⟩ ⟨0, 0, 1⟩ 10 0 (gOne : Geom ℝ).index
          (gOne : Geom ℝ).pos [0, 1, 2]).2 0) := by
  apply zero_intensity_stroke
  have hset : jsSetList [0, 1, 2] = [0, 1, 2] := jsSetList_nodup _ (by decide)
  have h1 : Real.sqrt 1 = 1 := Real.sqrt_one
  unfold displacementPass
  rw [hset]
  simp only [List.foldl_cons, List.foldl_nil]
  norm_num [displaceVertex, gOne, V3.distanceTo, V3.distSq, Function.update, h1]

/-- Concrete geometry for the C1 evaluation: two vertex-disjoint triangles
(identity index attribute); triangle 0 (vertices 0,1,2) far from the brush,
triangle 1 (vertices 3,4,5) inside it. -/
def gNrm : Geom K :=
  { index := fun i => i
    pos := fun v =>
      if v = 0 then ⟨100, 0, 0⟩ else if v = 1 then ⟨101, 0, 0⟩
      else if v = 2 then ⟨100, 1, 0⟩ else if v = 3 then ⟨1, 0, 0⟩
      else if v = 4 then ⟨0, 1, 0⟩ else ⟨0, 0, 1⟩
    normal := fun _ => ⟨7, 7, 7⟩ }

/-- C1 fails on the code: vertex 3's recorded incident-triangle list after
the displacement pass is [1] (triangle 1), yet the normal written for vertex
3 is (0,0,1) - the normalized face normal of the GLOBAL triangle 0 (the
for..in loop iterates array positions, not elements) - while the mean of the
normalized face normals of its recorded incident triangles, computed from
the current positions, is the normal of triangle 1, which is not (0,0,1). -/
theorem c1_normal_from_wrong_triangle :
    (strokeCore Real.sqrt ⟨0, 0, 0⟩ ⟨0, 0, 1⟩ 10 0 gNrm
        (collectedIndices [1])).normal 3 = ⟨0, 0, 1⟩ ∧
    (displacementPass Real.sqrt ⟨0, 0, 0⟩ ⟨0, 0, 1⟩ 10 0 (gNrm : Geom ℝ).index
        (gNrm : Geom ℝ).pos (collectedIndices [1])).2 3 = [1] ∧
    triangleGetNormal Real.sqrt ((gNrm : Geom ℝ).pos 3) ((gNrm : Geom ℝ).pos 4)
        ((gNrm : Geom ℝ).pos 5) ≠ ⟨0, 0, 1⟩ := by
  have hcol : collectedIndices [1] = [3, 4, 5] := by decide
  have hset : jsSetList [3, 4, 5] = [3, 4, 5] := jsSetList_nodup _ (by decide)
  have h1 : Real.sqrt 1 = 1 := Real.sqrt_one
  have hm3 : (displacementPass Real.sqrt ⟨0, 0, 0⟩ ⟨0, 0, 1⟩ 10 0 (gNrm : Geom ℝ).index
      (gNrm : Geom ℝ).pos [3, 4, 5]).2 3 = [1] := by
    unfold displacementPass
    rw [hset]
    simp only [List.foldl_cons, List.foldl_nil]
    norm_num [displaceVertex, gNrm, V3.distanceTo, V3.distSq, Function.update, h1]
  have hpos : (displacementPass Real.sqrt ⟨0, 0, 0⟩ ⟨0, 0, 1⟩ 10 0 (gNrm : Geom ℝ).index
      (gNrm : Geom ℝ).pos [3, 4, 5]).1 = (gNrm : Geom ℝ).pos :=
    foldl_displace_izero Real.sqrt ⟨0, 0, 0⟩ ⟨0, 0, 1⟩ 10 (gNrm : Geom ℝ).index
      (jsSetList [3, 4, 5]) ((gNrm : Geom ℝ).pos, fun _ => [])
  refine ⟨?_, hcol ▸ hm3, ?_⟩
  · rw [hcol]
    simp only [strokeCore]
    rw [if_neg (show [3, 4, 5] ≠ ([] : List ℕ) by decide)]
    unfold normalRefresh
    rw [hm3, hpos, if_neg (show [1] ≠ ([] : List ℕ) by decide)]
    unfold vertexNormalWrite fetchedTriNormal triangleGetNormal
    have hr : List.range ([1] : List ℕ).length = [0] := rfl
    rw [hr]
    simp only [List.foldl_cons, List.foldl_nil]
    norm_num [gNrm, V3.cross, V3.lengthSq, h1, List.length_cons, List.length_nil]
    exact ⟨rfl, rfl, rfl⟩
  · have hval : triangleGetNormal Real.sqrt ((gNrm : Geom ℝ).pos 3)
        ((gNrm : Geom ℝ).pos 4) ((gNrm : Geom ℝ).pos 5) =
        ⟨1 / Real.sqrt 3, 1 / Real.sqrt 3, 1 / Real.sqrt 3⟩ := by
      unfold gNrm triangleGetNormal V3.cross V3.lengthSq
      norm_num
    rw [hval]
    intro hcon
    have hx := congrArg V3.x hcon
    dsimp only at hx
    exact absurd hx (one_div_ne_zero (ne_of_gt (Real.sqrt_pos.2 (by norm_num))))

/-- Concrete geometry for the C2 and C4 evaluations: two triangles sharing
vertex 0 (index list [0,1,2,0,3,4]); vertex 0 sits at the brush center, all
other vertices are outside the radius 2. -/
def gDup : Geom K :=
  { index := fun i =>
      if i = 0 then 0 else if i = 1 then 1 else if i = 2 then 2
      else if i = 3 then 0 else if i = 4 then 3 else 4
    pos := fun v =>
      if v = 0 then ⟨0, 0, 0⟩ else if v = 1 then ⟨5, 0, 0⟩
      else if v = 2 then ⟨0, 5, 0⟩ else if v = 3 then ⟨-5, 0, 0⟩ else ⟨0, -5, 0⟩
    normal := fun _ => ⟨7, 7, 7⟩ }

theorem strokeDup_pos0 :
    (strokeCore Real.sqrt ⟨0, 0, 0⟩ ⟨0, 0, 1⟩ 2 1 gDup
        (collectedIndices [0, 1])).pos 0 = ⟨0, 0, 3 / 2⟩ := by
  have hcol : collectedIndices [0, 1] = [0, 1, 2, 3, 4, 5] := by decide
  have hset : jsSetList [0, 1, 2, 3, 4, 5] = [0, 1, 2, 3, 4, 5] :=
    jsSetList_nodup _ (by decide)
  have h0 : Real.sqrt 0 = 0 := Real.sqrt_zero
  have h1 : Real.sqrt 1 = 1 := Real.sqrt_one
  have h25 : Real.sqrt 25 = 5 := sqrt_val (by norm_num) (by norm_num)
  rw [hcol]
  simp only [strokeCore]
  unfold displacementPass
  rw [hset]
  simp only [List.foldl_cons, List.foldl_nil]
  norm_num [displaceVertex, gDup, V3.distanceTo, V3.distSq, Function.update,
    h0, h1, h25]

theorem singleApp_pos0 :
    (gDup : Geom ℝ).pos 0 +
      ((1 - V3.distanceTo Real.sqrt ((gDup : Geom ℝ).pos 0) ⟨0, 0, 0⟩ / 2) * 1) •
        (⟨0, 0, 1⟩ : V3 ℝ) = ⟨0, 0, 1⟩ := by
  unfold gDup V3.distanceTo V3.distSq
  norm_num [Real.sqrt_zero]

/-- C2 fails on the code: the Set deduplicates the collected index-buffer
offsets (which are pairwise distinct), not vertex indices, so vertex 0 -
shared by the two accepted triangles - is processed twice, the second
iteration reading its already-displaced position; the final position
(0,0,3/2) differs from the single-application result (0,0,1) obtained from
the pre-stroke position. -/
theorem c2_shared_vertex_displaced_twice :
    (strokeCore Real.sqrt ⟨0, 0, 0⟩ ⟨0, 0, 1⟩ 2 1 gDup
        (collectedIndices [0, 1])).pos 0 = ⟨0, 0, 3 / 2⟩ ∧
    (strokeCore Real.sqrt ⟨0, 0, 0⟩ ⟨0, 0, 1⟩ 2 1 gDup
        (collectedIndices [0, 1])).pos 0 ≠
      (gDup : Geom ℝ).pos 0 +
        ((1 - V3.distanceTo Real.sqrt ((gDup : Geom ℝ).pos 0) ⟨0, 0, 0⟩ / 2) * 1) •
          (⟨0, 0, 1⟩ : V3 ℝ) := by
  refine ⟨strokeDup_pos0, ?_⟩
  rw [strokeDup_pos0, singleApp_pos0]
  intro hcon
  have hz := congrArg V3.z hcon
  norm_num at hz

/-- C4 fails on the code for shared vertices, while its out-of-radius half
holds: vertex 3 (pre-stroke distance 5 > radius 2) keeps its exact position,
but the in-range vertex 0 does not receive old + direction * (1 -
dist/radius) * intensity - it is displaced once per incident accepted
triangle instead. -/
theorem c4_displacement_formula_violated :
    (strokeCore Real.sqrt ⟨0, 0, 0⟩ ⟨0, 0, 1⟩ 2 1 gDup
        (collectedIndices [0, 1])).pos 3 = (gDup : Geom ℝ).pos 3 ∧
    (strokeCore Real.sqrt ⟨0, 0, 0⟩ ⟨0, 0, 1⟩ 2 1 gDup
        (collectedIndices [0, 1])).pos 0 ≠
      (gDup : Geom ℝ).pos 0 +
        ((1 - V3.distanceTo Real.sqrt ((gDup : Geom ℝ).pos 0) ⟨0, 0, 0⟩ / 2) * 1) •
          (⟨0, 0, 1⟩ : V3 ℝ) := by
  constructor
  · have h25 : Real.sqrt 25 = 5 := sqrt_val (by norm_num) (by norm_num)
    have hfar : V3.distanceTo Real.sqrt ((gDup : Geom ℝ).pos 3) ⟨0, 0, 0⟩ > 2 := by
      unfold gDup V3.distanceTo V3.distSq
      norm_num [h25]
    exact (displacementPass_far Real.sqrt ⟨0, 0, 0⟩ ⟨0, 0, 1⟩ 2 1
      (gDup : Geom ℝ).index (gDup : Geom ℝ).pos (collectedIndices [0, 1]) 3 hfar).1
  · rw [strokeDup_pos0, singleApp_pos0]
    intro hcon
    have hz := congrArg V3.z hcon
    norm_num at hz

end SculptSpec
